import Mathlib

/- Verification of the advisor-opportunity engine: the SIP / insurance /
   portfolio opportunity detectors (src/app/services.py) and the narrative
   synthesizer (src/agent.py).

   Conventions of the shallow embedding:
   * Monetary amounts, rates and scores are rationals.
   * Date strings are kept abstract: a parameter `daysSince : String → Option Int`
     stands for the composition of `dateutil.parser.parse` with day-difference
     from the ambient `datetime.now()` (`none` = unparseable string).  It is an
     explicit argument of every date-dependent service function.
   * Python `float(...)` parsing of rating text is likewise an explicit
     parameter `parseFloat : String → Option ℚ` (`none` = ValueError).
   * Database rows are structures; columns that a query checks with
     `IS NOT NULL` or that Python reads with `x or default` are `Option` fields.
   * Presentational description strings (built with locale number formatting)
     are not modelled; no claim concerns them.
-/

namespace Wealthy

/-- JSON values: the type of `json.loads` results inside the synthesizer. -/
inductive Json where
  | null : Json
  | bool (b : Bool) : Json
  | num (q : ℚ) : Json
  | str (s : String) : Json
  | arr (elems : List Json) : Json
  | obj (fields : List (String × Json)) : Json

/-- Outcome of the round trip to the generative service inside the `try` block
of `analyze_opportunity`: either some step raises (model construction,
invocation, timeout, blocked response text) or a response text is produced. -/
inductive GenOutcome where
  | raises (message : String) : GenOutcome
  | responds (text : String) : GenOutcome

/-- The safe default error object returned by the `except` branch of
`analyze_opportunity` (src/agent.py, lines 68-76). -/
def fallbackResponse (errorDetails : String) : Json :=
  Json.obj
    [ ("urgency_score", Json.num 0),
      ("headline", Json.str "Manual Review Required"),
      ("talking_point", Json.str "Data analysis incomplete. Please review client file manually."),
      ("suggested_action", Json.str "Open Profile"),
      ("error_details", Json.str errorDetails) ]

/-- Shallow embedding of `analyze_opportunity` (src/agent.py).  `parseJson`
models `json.loads` (`Except.error` carries the decode exception message);
`outcome` models everything in the `try` block up to and including reading
`response.text`.  The three explicit client inputs only feed the prompt and do
not influence the control flow of the source function. -/
def analyze_opportunity (parseJson : String → Except String Json)
    (client_name opportunity_type : String) (raw_data : Json)
    (outcome : GenOutcome) : Json :=
  match outcome with
  | GenOutcome.raises e => fallbackResponse e
  | GenOutcome.responds text =>
    match parseJson text with
    | Except.ok parsed => parsed
    | Except.error e => fallbackResponse e

/-- The six field names of the fixed output schema of spec section 4.4 / 6. -/
def schemaKeys : List String :=
  ["client_id", "urgency_score", "opportunity_type", "headline", "talking_point", "suggested_action"]

/-- Modelled from the spec wording: the value constraint per schema field
(integer urgency score, category tag from the closed set, strings elsewhere). -/
def schemaValueOk (key : String) (v : Json) : Bool :=
  if key = "urgency_score" then
    match v with
    | Json.num q => q.den == 1
    | _ => false
  else if key = "opportunity_type" then
    match v with
    | Json.str s => ["SIP_RECOVERY", "PORTFOLIO_OPTIMIZATION", "PROTECTION_ENHANCEMENT"].contains s
    | _ => false
  else
    match v with
    | Json.str _ => true
    | _ => false

/-- Modelled from the spec wording (section 4.4): a synthesizer success result
conforms to the schema when it is an object with exactly the six fixed fields,
each satisfying its value constraint. -/
def conformsToSchema : Json → Bool
  | Json.obj fields =>
      (schemaKeys.all fun k => (fields.filter (fun p => p.1 == k)).length == 1) &&
      fields.all (fun p => schemaKeys.contains p.1 && schemaValueOk p.1 p.2)
  | _ => false

/-- C1: whenever the generative call raises (invocation failure or timeout) or
its response text fails to parse as JSON, `analyze_opportunity` returns exactly
the fallback object (urgency score 0, headline "Manual Review Required", the
manual-review talking point, action "Open Profile", plus an error-details
string); and for every outcome the result is either that fallback or the parsed
response object, so the call is a total function that never propagates a
failure past its own boundary. -/
theorem C1_synthesizer_fallback_total (parseJson : String → Except String Json)
    (cn ot : String) (raw : Json) :
    (∀ e, analyze_opportunity parseJson cn ot raw (GenOutcome.raises e) = fallbackResponse e) ∧
    (∀ t e, parseJson t = Except.error e →
      analyze_opportunity parseJson cn ot raw (GenOutcome.responds t) = fallbackResponse e) ∧
    (∀ g, (∃ e, analyze_opportunity parseJson cn ot raw g = fallbackResponse e) ∨
      (∃ t j, g = GenOutcome.responds t ∧ parseJson t = Except.ok j ∧
        analyze_opportunity parseJson cn ot raw g = j)) := by
  refine ⟨fun e => rfl, fun t e h => by simp [analyze_opportunity, h], fun g => ?_⟩
  cases g with
  | raises e => exact Or.inl ⟨e, rfl⟩
  | responds t =>
    cases h : parseJson t with
    | ok j => exact Or.inr ⟨t, j, rfl, h, by simp [analyze_opportunity, h]⟩
    | error e => exact Or.inl ⟨e, by simp [analyze_opportunity, h]⟩

/-- C1 witness: a concrete parse failure yields exactly the fallback object. -/
theorem C1_witness :
    analyze_opportunity (fun _ => Except.error "boom") "c" "t" Json.null
      (GenOutcome.responds "zzz") = fallbackResponse "boom" :=
  (C1_synthesizer_fallback_total (fun _ => Except.error "boom") "c" "t" Json.null).2.1
    "zzz" "boom" rfl

/-- A concrete `json.loads` model under which the generative response parses as
JSON but is not schema conforming. -/
def parseJsonFoo : String → Except String Json := fun t =>
  if t == "x" then Except.ok (Json.obj [("foo", Json.num 1)]) else Except.error "bad"

/-- C2 counterexample: a generative response that parses as JSON but does not
conform to the fixed schema is returned to the caller unchanged — the code does
no schema rejection or repair on the success path, refuting the claim. -/
theorem C2_counterexample :
    analyze_opportunity parseJsonFoo "c" "t" Json.null (GenOutcome.responds "x")
        = Json.obj [("foo", Json.num 1)] ∧
      conformsToSchema (Json.obj [("foo", Json.num 1)]) = false :=
  ⟨rfl, rfl⟩

/-- C2 (amended): on the success path `analyze_opportunity` returns the value
parsed by `json.loads` unchanged, whatever its shape; only a parse failure (or
an upstream exception) triggers the fallback, and no schema validation or
repair is applied to a response that parses as JSON. -/
theorem C2_success_returns_parsed_unvalidated (parseJson : String → Except String Json)
    (cn ot : String) (raw : Json) (t : String) (j : Json)
    (h : parseJson t = Except.ok j) :
    analyze_opportunity parseJson cn ot raw (GenOutcome.responds t) = j := by
  simp [analyze_opportunity, h]

/-- C2 witness: a concrete successfully-parsed response is handed back as is. -/
theorem C2_witness :
    analyze_opportunity (fun _ => Except.ok Json.null) "c" "t" Json.null
      (GenOutcome.responds "r") = Json.null :=
  C2_success_returns_parsed_unvalidated (fun _ => Except.ok Json.null)
    "c" "t" Json.null "r" Json.null rfl

/-- Python `x or default` on an optional string column: both SQL NULL and the
empty string are falsy. -/
def strOr (x : Option String) (d : String) : String :=
  match x with
  | none => d
  | some s => if s = "" then d else s

/-- The `if agent_id:` guard plus `.filter(Model.agent_id == agent_id)` pattern
shared by the services: no filtering for `None` or the empty string. -/
def pyAgentFilter {α : Type} (getAgent : α → Option String)
    (agent : Option String) (l : List α) : List α :=
  match agent with
  | none => l
  | some a => if a = "" then l else l.filter (fun r => getAgent r == some a)

/-- Descending comparison by a rational key: `a` may precede `b` when
`key a ≥ key b`. -/
def descKey {α : Type} (key : α → ℚ) : α → α → Prop := fun a b => key b ≤ key a

instance {α : Type} (key : α → ℚ) : DecidableRel (descKey key) :=
  fun a b => inferInstanceAs (Decidable (key b ≤ key a))

instance {α : Type} (key : α → ℚ) : IsTotal α (descKey key) :=
  ⟨fun a b => le_total (key b) (key a)⟩

instance {α : Type} (key : α → ℚ) : IsTrans α (descKey key) :=
  ⟨fun _ _ _ h1 h2 => le_trans h2 h1⟩

/-- Stable descending sort by a rational key: the model of both Python
`list.sort(key=..., reverse=True)` and SQL `ORDER BY ... DESC`. -/
def sortDescBy {α : Type} (key : α → ℚ) (l : List α) : List α :=
  List.insertionSort (descKey key) l

lemma sortDescBy_perm {α : Type} (key : α → ℚ) (l : List α) :
    List.Perm (sortDescBy key l) l :=
  List.perm_insertionSort _ l

lemma mem_sortDescBy {α : Type} {key : α → ℚ} {l : List α} {a : α} :
    a ∈ sortDescBy key l ↔ a ∈ l :=
  (sortDescBy_perm key l).mem_iff

lemma sortDescBy_sorted {α : Type} (key : α → ℚ) (l : List α) :
    (sortDescBy key l).Sorted (descKey key) :=
  List.sorted_insertionSort _ l

lemma length_sortDescBy {α : Type} (key : α → ℚ) (l : List α) :
    (sortDescBy key l).length = l.length :=
  (sortDescBy_perm key l).length_eq

/-- One step of first-occurrence accumulation. -/
def addNew (acc : List String) (x : String) : List String :=
  if x ∈ acc then acc else acc ++ [x]

/-- First occurrences, in order, of the elements of `l` — the key order of an
SQL `GROUP BY` / Python dict grouping over `l`. -/
def firstOccs (l : List String) : List String :=
  l.foldl addNew []

lemma mem_addNew {acc : List String} {x y : String} :
    y ∈ addNew acc x ↔ y ∈ acc ∨ y = x := by
  unfold addNew
  by_cases h : x ∈ acc
  · rw [if_pos h]
    constructor
    · intro hy
      exact Or.inl hy
    · rintro (hy | rfl)
      · exact hy
      · exact h
  · rw [if_neg h]
    simp

lemma nodup_addNew {acc : List String} {x : String} (h : acc.Nodup) :
    (addNew acc x).Nodup := by
  unfold addNew
  by_cases hx : x ∈ acc <;> simp [hx, List.nodup_append, h]

lemma mem_foldl_addNew :
    ∀ (l acc : List String) (x : String),
      x ∈ l.foldl addNew acc ↔ x ∈ acc ∨ x ∈ l := by
  intro l
  induction l with
  | nil => simp
  | cons y l ih =>
    intro acc x
    simp only [List.foldl_cons, ih, mem_addNew, List.mem_cons]
    tauto

lemma nodup_foldl_addNew :
    ∀ (l acc : List String), acc.Nodup → (l.foldl addNew acc).Nodup := by
  intro l
  induction l with
  | nil => simpa using fun _ h => h
  | cons y l ih =>
    intro acc h
    exact ih _ (nodup_addNew h)

lemma mem_firstOccs {l : List String} {x : String} :
    x ∈ firstOccs l ↔ x ∈ l := by
  unfold firstOccs
  rw [mem_foldl_addNew]
  simp

lemma nodup_firstOccs (l : List String) : (firstOccs l).Nodup :=
  nodup_foldl_addNew l [] List.nodup_nil

/-- `parse_date_safe` composed with the day difference from now
(`get_days_since_date` in src/app/services.py), for an optional date column:
SQL NULL and the empty string give `none`, otherwise the `daysSince` oracle
decides parseability and the day count. -/
def get_days_since_date (daysSince : String → Option Int) : Option String → Option Int
  | none => none
  | some s => if s = "" then none else daysSince s

/-- `get_months_since_date` (src/app/services.py): elapsed days floor-divided
by 30 (Python `//`). -/
def get_months_since_date (daysSince : String → Option Int) (d : Option String) : Option Int :=
  (get_days_since_date daysSince d).map (fun n => Int.fdiv n 30)

/-- The columns of a `sip_records` row (src/app/models.py) read by the SIP
detectors.  String status flags model the string-typed boolean columns; date
columns are optional strings; monetary columns are rationals. -/
structure SIPRecord where
  user_id : String
  agent_id : Option String
  agent_external_id : Option String
  amount : ℚ
  increment_percentage : ℚ
  increment_period : Option String
  is_active : String
  current_sip_status : String
  deleted : String
  start_date : Option String
  latest_success_order_date : Option String
  success_amount : ℚ
  failed_amount : ℚ
deriving DecidableEq

/-- The `OpportunityClient` response schema as populated by the SIP detectors
(description text not modelled; `failed_amount` is only set by the
failed-transaction rule and otherwise keeps its `None` default). -/
structure OpportunityClient where
  user_id : String
  agent_id : String
  agent_external_id : String
  opportunity_type : String
  current_sip_amount : ℚ
  potential_increase : ℚ
  last_activity_date : Option String
  days_since_activity : Option Int
  total_invested : ℚ
  failed_amount : Option ℚ
  risk_score : ℚ
deriving DecidableEq

/-- The opportunity object built in the loop body of
`get_no_sip_increase_clients`, for months-since-last-success `ml`. -/
def noIncreaseOpp (daysSince : String → Option Int) (r : SIPRecord) (ml : Int) :
    OpportunityClient :=
  { user_id := r.user_id
    agent_id := strOr r.agent_id "0"
    agent_external_id := strOr r.agent_external_id "unassigned"
    opportunity_type := "No SIP Increase"
    current_sip_amount := r.amount
    potential_increase := r.amount * (r.increment_percentage / 100)
    last_activity_date := r.latest_success_order_date
    days_since_activity := get_days_since_date daysSince r.latest_success_order_date
    total_invested := r.success_amount
    failed_amount := none
    risk_score := min 10 ((ml : ℚ) / 6) }

/-- `expected_increments` as computed for months-since-start `ms`: semiannual
("6M") period gives `ms // 6` once `ms ≥ 6`, annual ("1Y") gives `ms // 12`
once `ms ≥ 12`, otherwise zero. -/
def expectedIncrements (r : SIPRecord) (ms : Int) : Int :=
  if r.increment_period = some "6M" ∧ 6 ≤ ms then Int.fdiv ms 6
  else if r.increment_period = some "1Y" ∧ 12 ≤ ms then Int.fdiv ms 12
  else 0

/-- Loop body of `get_no_sip_increase_clients`: the guard
`if months_since_last and months_since_start and months_since_last >= min_months`
uses Python truthiness, so `None` and `0` months both skip the record. -/
def noIncreaseStep (daysSince : String → Option Int) (min_months : Int)
    (r : SIPRecord) : Option OpportunityClient :=
  match get_months_since_date daysSince r.latest_success_order_date,
        get_months_since_date daysSince r.start_date with
  | some ml, some ms =>
    if ml ≠ 0 ∧ ms ≠ 0 ∧ min_months ≤ ml then
      if 0 < expectedIncrements r ms then some (noIncreaseOpp daysSince r ml) else none
    else none
  | _, _ => none

/-- The five-way query filter of `get_no_sip_increase_clients`: active, in
"Success" state, not deleted, latest-success date column non-NULL, positive
increment percentage. -/
def noIncreaseQuery (r : SIPRecord) : Bool :=
  r.is_active == "true" && r.current_sip_status == "Success" &&
  r.deleted == "false" && r.latest_success_order_date.isSome &&
  decide (0 < r.increment_percentage)

/-- `get_no_sip_increase_clients` (src/app/services.py, lines 36-98): query
filter, per-record loop, sort by potential increase descending, truncate. -/
def get_no_sip_increase_clients (daysSince : String → Option Int)
    (records : List SIPRecord) (agent : Option String) (min_months : Int)
    (limit : Nat) : List OpportunityClient :=
  let rows := pyAgentFilter (fun r => r.agent_id) agent (records.filter noIncreaseQuery)
  let opportunities := rows.filterMap (noIncreaseStep daysSince min_months)
  (sortDescBy (fun o => o.potential_increase) opportunities).take limit

/-- The opportunity object built for each fetched record of
`get_failed_sip_clients`; `failure_rate` is `failed/(success+failed)*100`
guarded by `total_attempted > 0`. -/
def failedSipOpp (daysSince : String → Option Int) (r : SIPRecord) :
    OpportunityClient :=
  { user_id := r.user_id
    agent_id := strOr r.agent_id "0"
    agent_external_id := strOr r.agent_external_id "unassigned"
    opportunity_type := "Failed SIP Transactions"
    current_sip_amount := r.amount
    potential_increase := r.failed_amount
    last_activity_date := r.latest_success_order_date
    days_since_activity := get_days_since_date daysSince r.latest_success_order_date
    total_invested := r.success_amount
    failed_amount := some r.failed_amount
    risk_score :=
      min 10 ((if 0 < r.success_amount + r.failed_amount then
        r.failed_amount / (r.success_amount + r.failed_amount) * 100 else 0) / 10) }

/-- The query filter of `get_failed_sip_clients`: not deleted and failed amount
at least the threshold. -/
def failedSipQuery (min_failed_amount : ℚ) (r : SIPRecord) : Bool :=
  r.deleted == "false" && decide (min_failed_amount ≤ r.failed_amount)

/-- `get_failed_sip_clients` (src/app/services.py, lines 101-144): query filter,
`ORDER BY failed_amount DESC LIMIT limit*2`, one opportunity per fetched row,
final `[:limit]` truncation. -/
def get_failed_sip_clients (daysSince : String → Option Int)
    (records : List SIPRecord) (agent : Option String) (min_failed_amount : ℚ)
    (limit : Nat) : List OpportunityClient :=
  let rows := pyAgentFilter (fun r => r.agent_id) agent
    (records.filter (failedSipQuery min_failed_amount))
  let fetched := (sortDescBy (fun r => r.failed_amount) rows).take (limit * 2)
  (fetched.map (failedSipOpp daysSince)).take limit

/-- The opportunity object built in the loop body of
`get_high_value_inactive_clients` for days-since-activity `days`
(`potential_increase = amount * 1.5`). -/
def highValueOpp (daysSince : String → Option Int) (r : SIPRecord) (days : Int) :
    OpportunityClient :=
  { user_id := r.user_id
    agent_id := strOr r.agent_id "0"
    agent_external_id := strOr r.agent_external_id "unassigned"
    opportunity_type := "High-Value Inactive Client"
    current_sip_amount := r.amount
    potential_increase := r.amount * (3 / 2)
    last_activity_date := r.latest_success_order_date
    days_since_activity := some days
    total_invested := r.success_amount
    failed_amount := none
    risk_score := min 10 ((days : ℚ) / 30) }

/-- Loop body of `get_high_value_inactive_clients`: the guard
`if days_since_activity and days_since_activity >= min_inactive_days` uses
Python truthiness, so `None` and `0` days both skip the record. -/
def highValueStep (daysSince : String → Option Int) (min_inactive_days : Int)
    (r : SIPRecord) : Option OpportunityClient :=
  match get_days_since_date daysSince r.latest_success_order_date with
  | some days =>
    if days ≠ 0 ∧ min_inactive_days ≤ days then
      some (highValueOpp daysSince r days)
    else none
  | none => none

/-- The query filter of `get_high_value_inactive_clients`: not deleted, success
amount at least the threshold, latest-success date column non-NULL. -/
def highValueQuery (min_invested_amount : ℚ) (r : SIPRecord) : Bool :=
  r.deleted == "false" && decide (min_invested_amount ≤ r.success_amount) &&
  r.latest_success_order_date.isSome

/-- `get_high_value_inactive_clients` (src/app/services.py, lines 147-196):
query filter, `ORDER BY success_amount DESC LIMIT limit*3`, inactivity check in
the loop, sort by total invested descending, truncate. -/
def get_high_value_inactive_clients (daysSince : String → Option Int)
    (records : List SIPRecord) (agent : Option String) (min_invested_amount : ℚ)
    (min_inactive_days : Int) (limit : Nat) : List OpportunityClient :=
  let rows := pyAgentFilter (fun r => r.agent_id) agent
    (records.filter (highValueQuery min_invested_amount))
  let fetched := (sortDescBy (fun r => r.success_amount) rows).take (limit * 3)
  let opportunities := fetched.filterMap (highValueStep daysSince min_inactive_days)
  (sortDescBy (fun o => o.total_invested) opportunities).take limit

/-- `get_all_opportunities` (src/app/services.py, lines 199-215): one
`limit // 3` slice from each rule at its default thresholds, sorted by
`risk_score + potential_increase / 10000` descending, truncated. -/
def get_all_opportunities (daysSince : String → Option Int)
    (records : List SIPRecord) (agent : Option String) (limit : Nat) :
    List OpportunityClient :=
  let all_opps :=
    get_no_sip_increase_clients daysSince records agent 12 (limit / 3) ++
    get_failed_sip_clients daysSince records agent 5000 (limit / 3) ++
    get_high_value_inactive_clients daysSince records agent 100000 60 (limit / 3)
  (sortDescBy (fun o => o.risk_score + o.potential_increase / 10000) all_opps).take limit

lemma filterMap_eq_map_filter_of_forall {α β : Type} (c : α → Bool)
    (step : α → Option β) (f : α → β) (l : List α)
    (h : ∀ a ∈ l, step a = if c a then some (f a) else none) :
    l.filterMap step = (l.filter c).map f := by
  induction l with
  | nil => rfl
  | cons a l ih =>
    have ha := h a (List.mem_cons_self a l)
    have ih' := ih (fun b hb => h b (List.mem_cons_of_mem a hb))
    by_cases hc : c a
    · simp [List.filterMap_cons, List.filter_cons, ha, hc, ih']
    · simp [List.filterMap_cons, List.filter_cons, ha, hc, ih']

lemma map_take_sortDescBy_sorted {α : Type} (key : α → ℚ) (l : List α) (n : Nat) :
    (((sortDescBy key l).take n).map key).Sorted (fun a b : ℚ => b ≤ a) := by
  have h1 : ((sortDescBy key l).take n).Sorted (descKey key) :=
    List.Pairwise.sublist (List.take_sublist n _) (sortDescBy_sorted key l)
  rw [List.Sorted, List.pairwise_map]
  exact h1

/-- Claim-side `expected_increments` for a plan, zero when the start date does
not parse. -/
def claimedExpected (daysSince : String → Option Int) (r : SIPRecord) : Int :=
  match get_months_since_date daysSince r.start_date with
  | some ms => expectedIncrements r ms
  | none => 0

/-- Follows the claim wording for C3: a plan is eligible when it is active, in
"Success" state, not soft-deleted, has a positive increment percentage, a
parseable latest-success date at least `min_months` months old, and a positive
expected-increment count. -/
def noIncreaseEligible (daysSince : String → Option Int) (min_months : Int)
    (r : SIPRecord) : Bool :=
  r.is_active == "true" && r.current_sip_status == "Success" &&
  r.deleted == "false" && decide (0 < r.increment_percentage) &&
  (match get_months_since_date daysSince r.latest_success_order_date with
   | some ml => decide (min_months ≤ ml)
   | none => false) &&
  decide (0 < claimedExpected daysSince r)

/-- Follows the claim wording for C3: one opportunity per eligible plan, sorted
descending by potential increase, truncated to the limit. -/
def noIncreaseClaimed (daysSince : String → Option Int) (records : List SIPRecord)
    (min_months : Int) (limit : Nat) : List OpportunityClient :=
  (sortDescBy (fun o => o.potential_increase)
    ((records.filter (noIncreaseEligible daysSince min_months)).map
      (fun r => noIncreaseOpp daysSince r
        ((get_months_since_date daysSince r.latest_success_order_date).getD 0)))).take limit

lemma expectedIncrements_pos_six_le {r : SIPRecord} {ms : Int}
    (h : 0 < expectedIncrements r ms) : 6 ≤ ms := by
  unfold expectedIncrements at h
  split_ifs at h with h1 h2
  · exact h1.2
  · omega
  · omega

lemma parseable_isSome {daysSince : String → Option Int} {d : Option String} {n : Int}
    (h : get_months_since_date daysSince d = some n) : d.isSome = true := by
  rcases d with _ | s
  · simp [get_months_since_date, get_days_since_date] at h
  · rfl

lemma noIncreaseEligible_query {daysSince : String → Option Int} {min_months : Int}
    {r : SIPRecord} (h : noIncreaseEligible daysSince min_months r = true) :
    noIncreaseQuery r = true := by
  unfold noIncreaseEligible at h
  unfold noIncreaseQuery
  rcases hml : get_months_since_date daysSince r.latest_success_order_date with _ | ml
  · rw [hml] at h
    simp at h
  · rw [hml] at h
    simp only [Bool.and_eq_true] at h ⊢
    exact ⟨⟨⟨⟨h.1.1.1.1.1, h.1.1.1.1.2⟩, h.1.1.1.2⟩, parseable_isSome hml⟩, h.1.1.2⟩

lemma noIncreaseStep_eq_claim (daysSince : String → Option Int) {min_months : Int}
    (hm : 1 ≤ min_months) (r : SIPRecord) (hq : noIncreaseQuery r = true) :
    noIncreaseStep daysSince min_months r =
      if noIncreaseEligible daysSince min_months r then
        some (noIncreaseOpp daysSince r
          ((get_months_since_date daysSince r.latest_success_order_date).getD 0))
      else none := by
  unfold noIncreaseQuery at hq
  simp only [Bool.and_eq_true, beq_iff_eq, decide_eq_true_eq] at hq
  obtain ⟨⟨⟨⟨hA, hB⟩, hC⟩, _⟩, hE⟩ := hq
  unfold noIncreaseStep noIncreaseEligible claimedExpected
  rcases hml : get_months_since_date daysSince r.latest_success_order_date with _ | ml
  · simp [hml]
  · rcases hms : get_months_since_date daysSince r.start_date with _ | ms
    · simp [hml, hms]
    · by_cases hle : min_months ≤ ml
      · by_cases hexp : 0 < expectedIncrements r ms
        · have h6 := expectedIncrements_pos_six_le hexp
          have hms0 : ms ≠ 0 := by omega
          have hml0 : ml ≠ 0 := by omega
          simp [hml, hms, hA, hB, hC, hE, hle, hexp, hml0, hms0]
        · have hout : ∀ (x : Option OpportunityClient),
              (if ml ≠ 0 ∧ ms ≠ 0 ∧ min_months ≤ ml then
                if 0 < expectedIncrements r ms then x else none else none) = none := by
            intro x
            split_ifs <;> rfl
          simp [hml, hms, hexp, hout]
      · simp [hml, hms, hA, hB, hC, hE, hle]

/-- C3: with `min_months ≥ 1`, the no-increase rule emits an opportunity for a
plan exactly when the plan is active, in "Success" state, not soft-deleted, has
a positive increment percentage, a parseable latest-success date at least
`min_months` (elapsed days // 30) months old, and a positive expected-increment
count (months-since-start // 6 for a "6M" period once ≥ 6, // 12 for "1Y" once
≥ 12, else 0); each opportunity carries `potential_increase = amount *
increment_percentage / 100` and `risk_score = min 10 (months_since_last / 6)`,
and the result is sorted descending by potential increase and truncated. -/
theorem C3_no_sip_increase_spec (daysSince : String → Option Int)
    (records : List SIPRecord) (min_months : Int) (limit : Nat)
    (hm : 1 ≤ min_months) :
    get_no_sip_increase_clients daysSince records none min_months limit =
        noIncreaseClaimed daysSince records min_months limit ∧
      (get_no_sip_increase_clients daysSince records none min_months limit).length ≤ limit ∧
      ((get_no_sip_increase_clients daysSince records none min_months limit).map
        (fun o => o.potential_increase)).Sorted (fun a b : ℚ => b ≤ a) := by
  have hbridge :
      (records.filter noIncreaseQuery).filterMap (noIncreaseStep daysSince min_months) =
      (records.filter (noIncreaseEligible daysSince min_months)).map
        (fun r => noIncreaseOpp daysSince r
          ((get_months_since_date daysSince r.latest_success_order_date).getD 0)) := by
    rw [filterMap_eq_map_filter_of_forall (noIncreaseEligible daysSince min_months) _ _ _
      (fun a ha => noIncreaseStep_eq_claim daysSince hm a (List.mem_filter.mp ha).2)]
    apply congrArg
    rw [List.filter_filter]
    apply List.filter_congr
    intro a _
    by_cases hc : noIncreaseEligible daysSince min_months a = true
    · simp [hc, noIncreaseEligible_query hc]
    · simp only [Bool.not_eq_true] at hc
      simp [hc]
  refine ⟨?_, ?_, ?_⟩
  · simp only [get_no_sip_increase_clients, noIncreaseClaimed, pyAgentFilter]
    rw [hbridge]
  · exact List.length_take_le _ _
  · simp only [get_no_sip_increase_clients, pyAgentFilter]
    exact map_take_sortDescBy_sorted _ _ _

/-- Date oracle for the no-increase example: start date 425 days ago
(14 months), latest success 395 days ago (13 months). -/
def c3ds : String → Option Int := fun s =>
  if s = "start" then some 425 else if s = "last" then some 395 else none

/-- The no-increase example plan: amount 10000, increment 10% semiannually. -/
def c3rec : SIPRecord :=
  { user_id := "u1", agent_id := none, agent_external_id := none
    amount := 10000, increment_percentage := 10, increment_period := some "6M"
    is_active := "true", current_sip_status := "Success", deleted := "false"
    start_date := some "start", latest_success_order_date := some "last"
    success_amount := 50000, failed_amount := 0 }

/-- C3 witness: the spec example (months_since_start = 14, months_since_last =
13, min_months = 12) is emitted with potential increase 1000 and risk score
13/6 ≈ 2.17, and the theorem applies at this input. -/
theorem C3_witness :
    (1 : Int) ≤ 12 ∧
    get_no_sip_increase_clients c3ds [c3rec] none 12 100 =
      noIncreaseClaimed c3ds [c3rec] 12 100 ∧
    (get_no_sip_increase_clients c3ds [c3rec] none 12 100).map
      (fun o => (o.potential_increase, o.risk_score)) = [(1000, 13 / 6)] := by
  have hfd1 : Int.fdiv 395 30 = 13 := by decide
  have hfd2 : Int.fdiv 425 30 = 14 := by decide
  have hfd3 : Int.fdiv 14 6 = 2 := by decide
  refine ⟨by norm_num, (C3_no_sip_increase_spec c3ds [c3rec] 12 100 (by norm_num)).1, ?_⟩
  norm_num [get_no_sip_increase_clients, pyAgentFilter, noIncreaseQuery, noIncreaseStep,
    noIncreaseOpp, expectedIncrements, get_months_since_date, get_days_since_date,
    sortDescBy, List.insertionSort, descKey, c3ds, c3rec, strOr, hfd1, hfd2, hfd3, min_def]

/-- Failed-SIP record with a negative success amount: the denominator
`success + failed` is negative, the code guard `total_attempted > 0` yields
failure rate 0 while the claimed formula yields −150%. -/
def c4rec : SIPRecord :=
  { user_id := "u2", agent_id := none, agent_external_id := none
    amount := 1000, increment_percentage := 0, increment_period := none
    is_active := "true", current_sip_status := "Failure", deleted := "false"
    start_date := none, latest_success_order_date := none
    success_amount := -10000, failed_amount := 6000 }

/-- C4 counterexample: on a record with `success_amount + failed_amount < 0`
the emitted risk score is `min 10 (0 / 10) = 0`, while the claimed
`failure_rate = failed / (success + failed) * 100` would give risk score −15;
the claim's formula therefore does not describe the code for every record set. -/
theorem C4_counterexample :
    ((get_failed_sip_clients (fun _ => none) [c4rec] none 5000 10).map
      (fun o => o.risk_score)) = [0] ∧
    min (10 : ℚ) (c4rec.failed_amount / (c4rec.success_amount + c4rec.failed_amount)
      * 100 / 10) = -15 ∧
    (0 : ℚ) ≠ -15 := by
  refine ⟨?_, by norm_num [c4rec, min_def], by norm_num⟩
  norm_num [get_failed_sip_clients, pyAgentFilter, failedSipQuery, failedSipOpp,
    sortDescBy, List.insertionSort, descKey, c4rec, strOr, get_days_since_date, min_def]

/-- Failed-SIP spec example record: success 4000, failed 6000. -/
def c4ex : SIPRecord :=
  { user_id := "u3", agent_id := none, agent_external_id := none
    amount := 1000, increment_percentage := 0, increment_period := none
    is_active := "true", current_sip_status := "Success", deleted := "false"
    start_date := none, latest_success_order_date := none
    success_amount := 4000, failed_amount := 6000 }

/-- C4 (amended): the failed-transaction rule considers exactly the plans that
are not soft-deleted with `failed_amount ≥ min_failed_amount`; the result is
the top `limit` of them in descending failed-amount order, each opportunity
carrying `potential_increase = failed_amount` and `risk_score = min 10
(failure_rate / 10)` where `failure_rate = failed/(success+failed)*100` when
`success + failed > 0` and 0 otherwise (not only when the denominator is 0);
the spec example (success 4000, failed 6000) gives risk score 6. -/
theorem C4_failed_sip_amended (daysSince : String → Option Int)
    (records : List SIPRecord) (min_failed : ℚ) (limit : Nat) :
    get_failed_sip_clients daysSince records none min_failed limit =
      ((sortDescBy (fun r => r.failed_amount)
        (records.filter (failedSipQuery min_failed))).take limit).map
        (failedSipOpp daysSince) ∧
    (get_failed_sip_clients daysSince records none min_failed limit).length ≤ limit ∧
    ((get_failed_sip_clients daysSince records none min_failed limit).map
      (fun o => o.potential_increase)).Sorted (fun a b : ℚ => b ≤ a) ∧
    ((get_failed_sip_clients (fun _ => none) [c4ex] none 5000 10).map
      (fun o => o.risk_score)) = [6] := by
  have hmain : get_failed_sip_clients daysSince records none min_failed limit =
      ((sortDescBy (fun r => r.failed_amount)
        (records.filter (failedSipQuery min_failed))).take limit).map
        (failedSipOpp daysSince) := by
    simp only [get_failed_sip_clients, pyAgentFilter]
    rw [← List.map_take, List.take_take]
    have hmin : min limit (limit * 2) = limit := by omega
    rw [hmin]
  refine ⟨hmain, ?_, ?_, ?_⟩
  · simp only [get_failed_sip_clients, pyAgentFilter]
    exact List.length_take_le _ _
  · rw [hmain, List.map_map]
    have hkey : ((fun o => o.potential_increase) ∘ failedSipOpp daysSince) =
        fun r => r.failed_amount := rfl
    rw [hkey]
    exact map_take_sortDescBy_sorted _ _ _
  · norm_num [get_failed_sip_clients, pyAgentFilter, failedSipQuery, failedSipOpp,
      sortDescBy, List.insertionSort, descKey, c4ex, strOr, get_days_since_date, min_def]

/-- Follows the claim wording for C5: not soft-deleted, success amount at least
the threshold, parseable latest-success date at least `min_inactive_days` old. -/
def highValueEligible (daysSince : String → Option Int) (min_invested : ℚ)
    (min_inactive_days : Int) (r : SIPRecord) : Bool :=
  r.deleted == "false" && decide (min_invested ≤ r.success_amount) &&
  (match get_days_since_date daysSince r.latest_success_order_date with
   | some d => decide (min_inactive_days ≤ d)
   | none => false)

/-- Date oracle for the high-value-inactive instances: "new" = 10 days ago,
"old" = 90 days ago. -/
def c5ds : String → Option Int := fun s =>
  if s = "new" then some 10 else if s = "old" then some 90 else none

/-- Recently active high-value plan, 500000 invested. -/
def c5r1 : SIPRecord :=
  { user_id := "a1", agent_id := none, agent_external_id := none
    amount := 1000, increment_percentage := 0, increment_period := none
    is_active := "true", current_sip_status := "Success", deleted := "false"
    start_date := none, latest_success_order_date := some "new"
    success_amount := 500000, failed_amount := 0 }

/-- Recently active high-value plan, 400000 invested. -/
def c5r2 : SIPRecord := { c5r1 with user_id := "a2", success_amount := 400000 }

/-- Recently active high-value plan, 300000 invested. -/
def c5r3 : SIPRecord := { c5r1 with user_id := "a3", success_amount := 300000 }

/-- Inactive high-value plan (90 days), 200000 invested — eligible under the
claim but crowded out of the `limit*3` prefetch by the three active plans. -/
def c5r4 : SIPRecord :=
  { c5r1 with
    user_id := "a4"
    success_amount := 200000
    latest_success_order_date := some "old" }

/-- C5 counterexample: with limit 1 the query prefetch keeps only the top 3
plans by success amount, all recently active, so the one plan that satisfies
every eligibility condition of the claim (not deleted, success ≥ 100000,
90 ≥ 60 days inactive) is never emitted and the result is empty — refuting the
claimed "emits if and only if eligible". -/
theorem C5_counterexample :
    get_high_value_inactive_clients c5ds [c5r1, c5r2, c5r3, c5r4] none 100000 60 1 = [] ∧
    c5r4.deleted = "false" ∧ (100000 : ℚ) ≤ c5r4.success_amount ∧
    get_days_since_date c5ds c5r4.latest_success_order_date = some 90 ∧
    (60 : Int) ≤ 90 := by
  refine ⟨?_, rfl, by norm_num [c5r4, c5r1], ?_, by norm_num⟩
  · norm_num [get_high_value_inactive_clients, pyAgentFilter, highValueQuery,
      highValueStep, highValueOpp, sortDescBy, List.insertionSort, descKey,
      c5ds, c5r1, c5r2, c5r3, c5r4, strOr, get_days_since_date]
  · decide

lemma highValueEligible_query {daysSince : String → Option Int} {min_invested : ℚ}
    {min_inactive_days : Int} {r : SIPRecord}
    (h : highValueEligible daysSince min_invested min_inactive_days r = true) :
    highValueQuery min_invested r = true := by
  unfold highValueEligible at h
  unfold highValueQuery
  rcases hd : get_days_since_date daysSince r.latest_success_order_date with _ | d
  · rw [hd] at h
    simp at h
  · rw [hd] at h
    simp only [Bool.and_eq_true] at h ⊢
    refine ⟨⟨h.1.1, h.1.2⟩, ?_⟩
    rcases ho : r.latest_success_order_date with _ | s
    · rw [ho] at hd
      simp [get_days_since_date] at hd
    · rfl

lemma highValueStep_eq_claim (daysSince : String → Option Int) {min_invested : ℚ}
    {min_inactive_days : Int} (hmi : 1 ≤ min_inactive_days) (r : SIPRecord)
    (hq : highValueQuery min_invested r = true) :
    highValueStep daysSince min_inactive_days r =
      if highValueEligible daysSince min_invested min_inactive_days r then
        some (highValueOpp daysSince r
          ((get_days_since_date daysSince r.latest_success_order_date).getD 0))
      else none := by
  unfold highValueQuery at hq
  simp only [Bool.and_eq_true, beq_iff_eq, decide_eq_true_eq] at hq
  obtain ⟨⟨hA, hB⟩, -⟩ := hq
  unfold highValueStep highValueEligible
  rcases hd : get_days_since_date daysSince r.latest_success_order_date with _ | d
  · simp [hd]
  · by_cases hled : min_inactive_days ≤ d
    · have hd0 : d ≠ 0 := by omega
      simp [hd, hA, hB, hled, hd0]
    · simp [hd, hA, hB, hled]

/-- C5 (amended): the high-value-inactive rule first keeps only the
`limit * 3` plans with the highest success amounts among those passing the
database filter (not deleted, success ≥ threshold, non-NULL latest-success
date); within that prefetch it emits exactly the plans with a parseable
latest-success date at least `min_inactive_days` old, with
`potential_increase = amount * 1.5` and `risk_score = min 10 (days / 30)`,
sorted descending by invested amount and truncated to the limit.  An eligible
plan outside the prefetch window is silently dropped. -/
theorem C5_high_value_amended (daysSince : String → Option Int)
    (records : List SIPRecord) (min_invested : ℚ) (min_inactive_days : Int)
    (limit : Nat) (hmi : 1 ≤ min_inactive_days) :
    get_high_value_inactive_clients daysSince records none min_invested
        min_inactive_days limit =
      (sortDescBy (fun o => o.total_invested)
        ((((sortDescBy (fun r => r.success_amount)
            (records.filter (highValueQuery min_invested))).take (limit * 3)).filter
          (highValueEligible daysSince min_invested min_inactive_days)).map
          (fun r => highValueOpp daysSince r
            ((get_days_since_date daysSince r.latest_success_order_date).getD 0)))).take limit ∧
    (get_high_value_inactive_clients daysSince records none min_invested
      min_inactive_days limit).length ≤ limit ∧
    ((get_high_value_inactive_clients daysSince records none min_invested
      min_inactive_days limit).map (fun o => o.total_invested)).Sorted
      (fun a b : ℚ => b ≤ a) := by
  have hbridge :
      ((sortDescBy (fun r => r.success_amount)
          (records.filter (highValueQuery min_invested))).take (limit * 3)).filterMap
        (highValueStep daysSince min_inactive_days) =
      (((sortDescBy (fun r => r.success_amount)
          (records.filter (highValueQuery min_invested))).take (limit * 3)).filter
        (highValueEligible daysSince min_invested min_inactive_days)).map
        (fun r => highValueOpp daysSince r
          ((get_days_since_date daysSince r.latest_success_order_date).getD 0)) := by
    apply filterMap_eq_map_filter_of_forall
    intro a ha
    have hmem : a ∈ records.filter (highValueQuery min_invested) :=
      mem_sortDescBy.mp ((List.take_sublist _ _).subset ha)
    exact highValueStep_eq_claim daysSince hmi a (List.mem_filter.mp hmem).2
  refine ⟨?_, ?_, ?_⟩
  · simp only [get_high_value_inactive_clients, pyAgentFilter]
    rw [hbridge]
  · exact List.length_take_le _ _
  · simp only [get_high_value_inactive_clients, pyAgentFilter]
    exact map_take_sortDescBy_sorted _ _ _

/-- The spec's high-value-inactive example plan: 150000 invested, last success
90 days ago. -/
def c5exr : SIPRecord :=
  { user_id := "w1", agent_id := none, agent_external_id := none
    amount := 10000, increment_percentage := 0, increment_period := none
    is_active := "true", current_sip_status := "Success", deleted := "false"
    start_date := none, latest_success_order_date := some "old"
    success_amount := 150000, failed_amount := 0 }

/-- C5 witness: the amended theorem applies at the spec example (150000
invested, 90 days inactive, thresholds 100000 and 60), which is emitted with
risk score 3 and potential increase 15000. -/
theorem C5_witness :
    (1 : Int) ≤ 60 ∧
    get_high_value_inactive_clients c5ds [c5exr] none 100000 60 10 =
      (sortDescBy (fun o => o.total_invested)
        ((((sortDescBy (fun r => r.success_amount)
            ([c5exr].filter (highValueQuery 100000))).take (10 * 3)).filter
          (highValueEligible c5ds 100000 60)).map
          (fun r => highValueOpp c5ds r
            ((get_days_since_date c5ds r.latest_success_order_date).getD 0)))).take 10 ∧
    (get_high_value_inactive_clients c5ds [c5exr] none 100000 60 10).map
      (fun o => (o.total_invested, o.risk_score, o.potential_increase)) =
      [(150000, 3, 15000)] := by
  refine ⟨by norm_num,
    (C5_high_value_amended c5ds [c5exr] 100000 60 10 (by norm_num)).1, ?_⟩
  norm_num [get_high_value_inactive_clients, pyAgentFilter, highValueQuery,
    highValueStep, highValueOpp, sortDescBy, List.insertionSort, descKey,
    c5ds, c5exr, strOr, get_days_since_date, min_def]

/-- C6: the combined view equals the concatenation of one `limit / 3` slice
from each of the three SIP rules at their default thresholds (12 months, 5000
failed, 100000 invested / 60 days), sorted descending by
`risk_score + potential_increase / 10000` and truncated to `limit`; as a
consequence of the equal slice sizes, any `limit < 3` returns the empty list
regardless of how many opportunities exist. -/
theorem C6_all_opportunities_spec (daysSince : String → Option Int)
    (records : List SIPRecord) (agent : Option String) (limit : Nat) :
    get_all_opportunities daysSince records agent limit =
      (sortDescBy (fun o => o.risk_score + o.potential_increase / 10000)
        (get_no_sip_increase_clients daysSince records agent 12 (limit / 3) ++
         get_failed_sip_clients daysSince records agent 5000 (limit / 3) ++
         get_high_value_inactive_clients daysSince records agent 100000 60
           (limit / 3))).take limit ∧
    (limit < 3 → get_all_opportunities daysSince records agent limit = []) := by
  constructor
  · rfl
  · intro h3
    have h0 : limit / 3 = 0 := by omega
    unfold get_all_opportunities
    rw [h0]
    have e1 : get_no_sip_increase_clients daysSince records agent 12 0 = [] := by
      simp [get_no_sip_increase_clients]
    have e2 : get_failed_sip_clients daysSince records agent 5000 0 = [] := by
      simp [get_failed_sip_clients]
    have e3 : get_high_value_inactive_clients daysSince records agent 100000 60 0 = [] := by
      simp [get_high_value_inactive_clients]
    simp [e1, e2, e3, sortDescBy, List.insertionSort]

/-- C6 witness: at limit 2 the combined view is empty. -/
theorem C6_witness :
    get_all_opportunities (fun _ => none) [c3rec, c4ex, c5exr] none 2 = [] :=
  (C6_all_opportunities_spec (fun _ => none) [c3rec, c4ex, c5exr] none 2).2
    (by norm_num)

/-- The columns of an `insurance_records` row (src/app/models.py) read by the
insurance detectors.  `premium_gap` and `opportunity_score` are modelled
non-optional because every reading of them sits behind an SQL comparison that
excludes NULL rows. -/
structure InsuranceRecord where
  user_id : String
  name : Option String
  agent_id : Option String
  agent_external_id : Option String
  deleted : String
  insurance_type : Option String
  premium : Option ℚ
  wealth_band : Option String
  mock_age : Option Int
  mf_current_value : Option ℚ
  baseline_expected_premium : Option ℚ
  premium_gap : ℚ
  opportunity_score : Int
deriving DecidableEq

/-- The `InsuranceOpportunity` response schema as populated by the insurance
detectors (description text not modelled). -/
structure InsuranceOpportunity where
  user_id : String
  name : String
  agent_id : String
  agent_external_id : String
  opportunity_type : String
  wealth_band : String
  age : Option Int
  mf_current_value : ℚ
  total_premium : ℚ
  baseline_expected_premium : ℚ
  premium_gap : ℚ
  opportunity_score : Int
  missing_coverage_types : List String
deriving DecidableEq

/-- The closed set of coverage categories
`{'Health', 'Term', 'ULIP', 'Traditional'}`. -/
def allCoverageTypes : List String := ["Health", "Term", "ULIP", "Traditional"]

/-- `record.insurance_type or 'Unknown'`. -/
def typeOr (r : InsuranceRecord) : String := strOr r.insurance_type "Unknown"

/-- `record.premium or 0` (0 and NULL both yield 0). -/
def premOr (r : InsuranceRecord) : ℚ := r.premium.getD 0

/-- Python set-`add` modelled on an insertion-ordered duplicate-free list. -/
def addTypeOnce (ts : List String) (t : String) : List String :=
  if t ∈ ts then ts else ts ++ [t]

/-- One entry of the `client_insurance` grouping dict of
`get_insurance_gap_opportunities`: the first record seen for the client, the
set of insurance types held, and the accumulated premium. -/
structure GapEntry where
  user_id : String
  record : InsuranceRecord
  insurance_types : List String
  total_premium : ℚ
deriving DecidableEq

/-- One iteration of the grouping loop of `get_insurance_gap_opportunities`:
a known client updates its type set and premium total, a new client appends a
fresh entry keyed by its first record. -/
def gapStep (acc : List GapEntry) (r : InsuranceRecord) : List GapEntry :=
  if acc.any (fun e => e.user_id == r.user_id) then
    acc.map (fun e =>
      if e.user_id == r.user_id then
        { e with insurance_types := addTypeOnce e.insurance_types (typeOr r)
                 total_premium := e.total_premium + premOr r }
      else e)
  else acc ++ [{ user_id := r.user_id, record := r,
                 insurance_types := [typeOr r], total_premium := premOr r }]

/-- The `client_insurance` dict after the grouping loop, in insertion order. -/
def gapGroups (l : List InsuranceRecord) : List GapEntry :=
  l.foldl gapStep []

/-- The opportunity object built per grouped client in
`get_insurance_gap_opportunities`; the missing coverage types are the set
difference `all_types - insurance_types` (listed here in the canonical order of
`allCoverageTypes`; the source materialises the set in unspecified order). -/
def gapOpp (e : GapEntry) : InsuranceOpportunity :=
  { user_id := e.user_id
    name := strOr e.record.name "Unknown"
    agent_id := strOr e.record.agent_id "0"
    agent_external_id := strOr e.record.agent_external_id "unassigned"
    opportunity_type := "Insurance Coverage Gap"
    wealth_band := strOr e.record.wealth_band "Unknown"
    age := e.record.mock_age
    mf_current_value := e.record.mf_current_value.getD 0
    total_premium := e.total_premium
    baseline_expected_premium := e.record.baseline_expected_premium.getD 0
    premium_gap := e.record.premium_gap
    opportunity_score := e.record.opportunity_score
    missing_coverage_types :=
      allCoverageTypes.filter (fun t => decide (¬ t ∈ e.insurance_types)) }

/-- The query filter of `get_insurance_gap_opportunities`: not deleted, premium
gap and opportunity score at least their thresholds. -/
def gapQuery (min_premium_gap : ℚ) (min_opportunity_score : Int)
    (r : InsuranceRecord) : Bool :=
  r.deleted == "false" && decide (min_premium_gap ≤ r.premium_gap) &&
  decide (min_opportunity_score ≤ r.opportunity_score)

/-- The rows fetched by `get_insurance_gap_opportunities`: query filter,
`ORDER BY opportunity_score DESC LIMIT limit*2`. -/
def gapFetched (records : List InsuranceRecord) (agent : Option String)
    (min_premium_gap : ℚ) (min_opportunity_score : Int) (limit : Nat) :
    List InsuranceRecord :=
  (sortDescBy (fun r => (r.opportunity_score : ℚ))
    (pyAgentFilter (fun r => r.agent_id) agent
      (records.filter (gapQuery min_premium_gap min_opportunity_score)))).take (limit * 2)

/-- `get_insurance_gap_opportunities` (src/app/services.py, lines 294-362):
fetch, group by client, one opportunity per client, sort by opportunity score
descending, truncate. -/
def get_insurance_gap_opportunities (records : List InsuranceRecord)
    (agent : Option String) (min_premium_gap : ℚ) (min_opportunity_score : Int)
    (limit : Nat) : List InsuranceOpportunity :=
  let fetched := gapFetched records agent min_premium_gap min_opportunity_score limit
  let opportunities := (gapGroups fetched).map gapOpp
  (sortDescBy (fun o => (o.opportunity_score : ℚ)) opportunities).take limit

/-- The agent-filtered, non-deleted contribution plans whose sums feed the
no-insurance group-by. -/
def noInsBase (sips : List SIPRecord) (agent : Option String) : List SIPRecord :=
  pyAgentFilter (fun r => r.agent_id) agent (sips.filter (fun r => r.deleted == "false"))

/-- `SUM(success_amount) GROUP BY user_id` over a row set, for one client. -/
def clientTotal (rows : List SIPRecord) (u : String) : ℚ :=
  ((rows.filter (fun r => r.user_id == u)).map (fun r => r.success_amount)).sum

/-- The distinct `user_id`s of non-deleted insurance records — the
`insured_clients` set (built without any agent filter in the source). -/
def insuredClientIds (ins : List InsuranceRecord) : List String :=
  (ins.filter (fun r => r.deleted == "false")).map (fun r => r.user_id)

/-- The opportunity object built per uninsured high-value client in
`get_no_insurance_clients`: fixed score 100, expected premium
`min(100000, total * 0.02)` used as both baseline and gap, step-function wealth
band, all four coverage types missing. -/
def noInsOpp (u : String) (total : ℚ) (r : SIPRecord) : InsuranceOpportunity :=
  { user_id := u
    name := "Unknown"
    agent_id := strOr r.agent_id "0"
    agent_external_id := strOr r.agent_external_id "unassigned"
    opportunity_type := "No Insurance Coverage"
    wealth_band := if (5000000 : ℚ) ≤ total then "5Cr+" else "1Cr-5Cr"
    age := none
    mf_current_value := total
    total_premium := 0
    baseline_expected_premium := min 100000 (total * (2 / 100))
    premium_gap := min 100000 (total * (2 / 100))
    opportunity_score := 100
    missing_coverage_types := allCoverageTypes }

/-- The `sip_clients` group-by rows of `get_no_insurance_clients`: distinct
clients of the agent-filtered non-deleted plans whose success-amount sum
reaches the HAVING threshold. -/
def noInsClients (sips : List SIPRecord) (agent : Option String)
    (min_mf_value : ℚ) : List String :=
  (firstOccs ((noInsBase sips agent).map (fun r => r.user_id))).filter
    (fun u => decide (min_mf_value ≤ clientTotal (noInsBase sips agent) u))

/-- The per-client loop body of `get_no_insurance_clients`: skip insured
clients, then look up the client's first non-deleted plan row (`.first()`,
without the agent filter) for the detail fields. -/
def noInsStep (sips : List SIPRecord) (ins : List InsuranceRecord)
    (agent : Option String) (u : String) : Option InsuranceOpportunity :=
  if u ∈ insuredClientIds ins then none
  else
    match (sips.filter (fun r => r.user_id == u && r.deleted == "false")).head? with
    | some r => some (noInsOpp u (clientTotal (noInsBase sips agent) u) r)
    | none => none

/-- `get_no_insurance_clients` (src/app/services.py, lines 365-429): group-by
sum over agent-filtered plans with a HAVING threshold, exclusion of insured
clients, per-client detail lookup, sort by invested value descending,
truncate. -/
def get_no_insurance_clients (sips : List SIPRecord) (ins : List InsuranceRecord)
    (agent : Option String) (min_mf_value : ℚ) (limit : Nat) :
    List InsuranceOpportunity :=
  (sortDescBy (fun o => o.mf_current_value)
    ((noInsClients sips agent min_mf_value).filterMap
      (noInsStep sips ins agent))).take limit

/-- The records of one client within a row set. -/
def gapMatching (l : List InsuranceRecord) (u : String) : List InsuranceRecord :=
  l.filter (fun r => r.user_id == u)

/-- What one grouping-dict entry holds about the processed prefix `p`: its
record is the client's first processed record, its premium total is the sum of
the client's premiums, and its type list holds exactly the client's insurance
types. -/
def entrySpec (p : List InsuranceRecord) (e : GapEntry) : Prop :=
  (gapMatching p e.user_id).head? = some e.record ∧
  e.total_premium = ((gapMatching p e.user_id).map premOr).sum ∧
  (∀ t, t ∈ e.insurance_types ↔ t ∈ (gapMatching p e.user_id).map typeOr)

/-- The grouping-loop invariant: distinct keys, keys = processed clients, and
each entry correct for the processed prefix. -/
def gapInv (p : List InsuranceRecord) (acc : List GapEntry) : Prop :=
  (acc.map (fun e => e.user_id)).Nodup ∧
  (∀ u, u ∈ acc.map (fun e => e.user_id) ↔ u ∈ p.map (fun r => r.user_id)) ∧
  (∀ e ∈ acc, entrySpec p e)

lemma gapMatching_append_one (p : List InsuranceRecord) (r : InsuranceRecord)
    (u : String) :
    gapMatching (p ++ [r]) u =
      gapMatching p u ++ (if r.user_id == u then [r] else []) := by
  unfold gapMatching
  rw [List.filter_append]
  by_cases h : r.user_id == u
  · simp [h]
  · simp only [Bool.not_eq_true] at h
    simp [h]

lemma mem_addTypeOnce {ts : List String} {t x : String} :
    x ∈ addTypeOnce ts t ↔ x ∈ ts ∨ x = t := by
  unfold addTypeOnce
  by_cases h : t ∈ ts
  · rw [if_pos h]
    constructor
    · exact Or.inl
    · rintro (hx | rfl)
      · exact hx
      · exact h
  · rw [if_neg h]
    simp

lemma gapStep_inv {p : List InsuranceRecord} {acc : List GapEntry}
    (h : gapInv p acc) (r : InsuranceRecord) :
    gapInv (p ++ [r]) (gapStep acc r) := by
  obtain ⟨hnd, hiff, hspec⟩ := h
  unfold gapStep
  by_cases hin : acc.any (fun e => e.user_id == r.user_id) = true
  · have hmem : r.user_id ∈ acc.map (fun e => e.user_id) := by
      rcases List.any_eq_true.mp hin with ⟨e, he, hbe⟩
      exact List.mem_map.mpr ⟨e, he, beq_iff_eq.mp hbe⟩
    rw [if_pos hin]
    have hkeys : (acc.map (fun e =>
        if e.user_id == r.user_id then
          { e with insurance_types := addTypeOnce e.insurance_types (typeOr r)
                   total_premium := e.total_premium + premOr r }
        else e)).map (fun e => e.user_id) = acc.map (fun e => e.user_id) := by
      rw [List.map_map]
      apply List.map_congr_left
      intro e _
      by_cases hue : e.user_id = r.user_id
      · simp [hue]
      · simp [hue]
    refine ⟨by rw [hkeys]; exact hnd, ?_, ?_⟩
    · intro u
      rw [hkeys, List.map_append]
      constructor
      · intro hu
        exact List.mem_append.mpr (Or.inl ((hiff u).mp hu))
      · intro hu
        rcases List.mem_append.mp hu with hu | hu
        · exact (hiff u).mpr hu
        · simp only [List.map_cons, List.map_nil, List.mem_singleton] at hu
          rw [hu]
          exact hmem
    · intro e' he'
      rcases List.mem_map.mp he' with ⟨e, he, rfl⟩
      obtain ⟨hh, hsum, hty⟩ := hspec e he
      by_cases hue : e.user_id = r.user_id
      · rw [if_pos (by simp [hue])]
        have hmm : gapMatching (p ++ [r]) e.user_id =
            gapMatching p e.user_id ++ [r] := by
          rw [gapMatching_append_one, if_pos (beq_iff_eq.mpr hue.symm)]
        constructor
        · show (gapMatching (p ++ [r]) e.user_id).head? = some e.record
          rw [hmm]
          cases hm : gapMatching p e.user_id with
          | nil => rw [hm] at hh; simp at hh
          | cons a rest =>
            rw [hm] at hh
            simp only [List.head?_cons, Option.some.injEq] at hh
            simp [hh]
        · constructor
          · show _ + premOr r = _
            rw [hmm, List.map_append, List.sum_append]
            simp [hsum]
          · intro t
            show t ∈ addTypeOnce e.insurance_types (typeOr r) ↔ _
            rw [mem_addTypeOnce, hmm, List.map_append]
            simp only [List.map_cons, List.map_nil, List.mem_append,
              List.mem_singleton]
            rw [hty t]
      · rw [if_neg (by simp [hue])]
        have hmm : gapMatching (p ++ [r]) e.user_id = gapMatching p e.user_id := by
          rw [gapMatching_append_one, if_neg (by simp [Ne.symm hue]), List.append_nil]
        exact ⟨by rw [hmm]; exact hh, by rw [hmm]; exact hsum, fun t => by rw [hmm]; exact hty t⟩
  · have hnmem : r.user_id ∉ acc.map (fun e => e.user_id) := by
      intro hmem
      rcases List.mem_map.mp hmem with ⟨e, he, hue⟩
      exact hin (List.any_eq_true.mpr ⟨e, he, beq_iff_eq.mpr hue⟩)
    have hnp : r.user_id ∉ p.map (fun x => x.user_id) :=
      fun hp => hnmem ((hiff r.user_id).mpr hp)
    have hpnil : gapMatching p r.user_id = [] := by
      unfold gapMatching
      rw [List.filter_eq_nil_iff]
      intro a ha hba
      exact hnp (List.mem_map.mpr ⟨a, ha, beq_iff_eq.mp hba⟩)
    rw [if_neg hin]
    refine ⟨?_, ?_, ?_⟩
    · rw [List.map_append]
      simp only [List.map_cons, List.map_nil]
      rw [List.nodup_append]
      exact ⟨hnd, List.nodup_singleton _, by simpa using hnmem⟩
    · intro u
      rw [List.map_append, List.map_append]
      simp only [List.map_cons, List.map_nil, List.mem_append, List.mem_singleton]
      constructor
      · rintro (hu | rfl)
        · exact Or.inl ((hiff u).mp hu)
        · exact Or.inr rfl
      · rintro (hu | rfl)
        · exact Or.inl ((hiff u).mpr hu)
        · exact Or.inr rfl
    · intro e' he'
      rcases List.mem_append.mp he' with he | he
      · obtain ⟨hh, hsum, hty⟩ := hspec e' he
        have hue : e'.user_id ≠ r.user_id := by
          intro hcontra
          exact hnmem (hcontra ▸ List.mem_map.mpr ⟨e', he, rfl⟩)
        have hmm : gapMatching (p ++ [r]) e'.user_id = gapMatching p e'.user_id := by
          rw [gapMatching_append_one, if_neg (by simp [Ne.symm hue]), List.append_nil]
        exact ⟨by rw [hmm]; exact hh, by rw [hmm]; exact hsum, fun t => by rw [hmm]; exact hty t⟩
      · simp only [List.mem_singleton] at he
        subst he
        have hmm : gapMatching (p ++ [r]) r.user_id = [r] := by
          rw [gapMatching_append_one, if_pos (by simp), hpnil, List.nil_append]
        exact ⟨by rw [hmm]; rfl, by rw [hmm]; simp [gapMatching], fun t => by rw [hmm]; simp [gapMatching]⟩

lemma gapGroups_foldl_inv :
    ∀ (l p : List InsuranceRecord) (acc : List GapEntry),
      gapInv p acc → gapInv (p ++ l) (l.foldl gapStep acc) := by
  intro l
  induction l with
  | nil => intro p acc h; simpa using h
  | cons r l ih =>
    intro p acc h
    have := ih (p ++ [r]) (gapStep acc r) (gapStep_inv h r)
    simpa using this

lemma gapGroups_spec (l : List InsuranceRecord) : gapInv l (gapGroups l) := by
  have h0 : gapInv [] ([] : List GapEntry) := by
    refine ⟨List.nodup_nil, fun u => by simp, fun e he => absurd he (List.not_mem_nil e)⟩
  have := gapGroups_foldl_inv l [] [] h0
  simpa [gapGroups] using this

lemma gapFetched_sorted (records : List InsuranceRecord) (agent : Option String)
    (min_gap : ℚ) (min_score : Int) (limit : Nat) :
    (gapFetched records agent min_gap min_score limit).Sorted
      (descKey (fun r : InsuranceRecord => (r.opportunity_score : ℚ))) :=
  List.Pairwise.sublist (List.take_sublist _ _) (sortDescBy_sorted _ _)

lemma head_max_of_sorted {l : List InsuranceRecord}
    (hs : l.Sorted (descKey (fun r : InsuranceRecord => (r.opportunity_score : ℚ))))
    (u : String) {r : InsuranceRecord} (hh : (gapMatching l u).head? = some r) :
    ∀ x ∈ gapMatching l u, x.opportunity_score ≤ r.opportunity_score := by
  have hs' : (gapMatching l u).Sorted
      (descKey (fun x : InsuranceRecord => (x.opportunity_score : ℚ))) :=
    List.Pairwise.filter _ hs
  intro x hx
  cases hm : gapMatching l u with
  | nil =>
    rw [hm] at hx
    exact absurd hx (List.not_mem_nil x)
  | cons a rest =>
    rw [hm] at hx hh hs'
    have ha : a = r := by simpa using hh
    subst ha
    rcases List.mem_cons.mp hx with rfl | hx'
    · exact le_refl _
    · have h2 : ((x.opportunity_score : ℚ)) ≤ (a.opportunity_score : ℚ) :=
        List.rel_of_sorted_cons hs' x hx'
      exact_mod_cast h2

/-- C8 (amended): among the `limit*2` highest-scored policies matching the
filters (the query prefetch), the coverage-gap rule emits at most one
opportunity per client: distinct client ids, sorted descending by opportunity
score, truncated to the limit; each opportunity's premium total sums that
client's prefetched premiums, its missing coverage types are the four canonical
types minus the client's prefetched insurance types, and its metadata comes
from the client's highest-scored prefetched record; every prefetched client is
emitted unless the result was truncated.  Records of a client beyond the
prefetch are not accumulated. -/
theorem C8_insurance_gap_amended (records : List InsuranceRecord)
    (agent : Option String) (min_gap : ℚ) (min_score : Int) (limit : Nat) :
    (get_insurance_gap_opportunities records agent min_gap min_score limit).length ≤ limit ∧
    ((get_insurance_gap_opportunities records agent min_gap min_score limit).map
      (fun o => o.user_id)).Nodup ∧
    ((get_insurance_gap_opportunities records agent min_gap min_score limit).map
      (fun o => (o.opportunity_score : ℚ))).Sorted (fun a b : ℚ => b ≤ a) ∧
    (∀ o ∈ get_insurance_gap_opportunities records agent min_gap min_score limit,
      o.user_id ∈ (gapFetched records agent min_gap min_score limit).map
        (fun r => r.user_id) ∧
      o.total_premium = ((gapMatching
        (gapFetched records agent min_gap min_score limit) o.user_id).map premOr).sum ∧
      (∀ t, t ∈ o.missing_coverage_types ↔ t ∈ allCoverageTypes ∧
        ¬ t ∈ (gapMatching (gapFetched records agent min_gap min_score limit)
          o.user_id).map typeOr) ∧
      (∃ r, (gapMatching (gapFetched records agent min_gap min_score limit)
          o.user_id).head? = some r ∧
        o.name = strOr r.name "Unknown" ∧
        o.agent_id = strOr r.agent_id "0" ∧
        o.premium_gap = r.premium_gap ∧
        o.baseline_expected_premium = r.baseline_expected_premium.getD 0 ∧
        o.opportunity_score = r.opportunity_score ∧
        (∀ x ∈ gapMatching (gapFetched records agent min_gap min_score limit)
          o.user_id, x.opportunity_score ≤ r.opportunity_score))) ∧
    (∀ u, u ∈ (gapFetched records agent min_gap min_score limit).map
        (fun r => r.user_id) →
      (get_insurance_gap_opportunities records agent min_gap min_score limit).length
        < limit →
      ∃ o ∈ get_insurance_gap_opportunities records agent min_gap min_score limit,
        o.user_id = u) := by
  obtain ⟨hnd, hiff, hspec⟩ := gapGroups_spec
    (gapFetched records agent min_gap min_score limit)
  have hres : get_insurance_gap_opportunities records agent min_gap min_score limit =
      (sortDescBy (fun o => (o.opportunity_score : ℚ))
        ((gapGroups (gapFetched records agent min_gap min_score limit)).map
          gapOpp)).take limit := rfl
  have hkeys2 : ((gapGroups (gapFetched records agent min_gap min_score limit)).map
      gapOpp).map (fun o => o.user_id) =
      (gapGroups (gapFetched records agent min_gap min_score limit)).map
        (fun e => e.user_id) := by
    rw [List.map_map]
    rfl
  refine ⟨?_, ?_, ?_, ?_, ?_⟩
  · rw [hres]
    exact List.length_take_le _ _
  · rw [hres, List.map_take]
    apply List.Nodup.sublist (List.take_sublist _ _)
    have hperm : List.Perm
        ((sortDescBy (fun o => (o.opportunity_score : ℚ))
          ((gapGroups (gapFetched records agent min_gap min_score limit)).map
            gapOpp)).map (fun o => o.user_id))
        (((gapGroups (gapFetched records agent min_gap min_score limit)).map
          gapOpp).map (fun o => o.user_id)) :=
      (sortDescBy_perm _ _).map _
    rw [hperm.nodup_iff, hkeys2]
    exact hnd
  · rw [hres]
    exact map_take_sortDescBy_sorted _ _ _
  · intro o ho
    rw [hres] at ho
    have ho2 : o ∈ (gapGroups (gapFetched records agent min_gap min_score limit)).map
        gapOpp :=
      mem_sortDescBy.mp ((List.take_sublist _ _).subset ho)
    rcases List.mem_map.mp ho2 with ⟨e, he, rfl⟩
    obtain ⟨hh, hsum, hty⟩ := hspec e he
    refine ⟨?_, ?_, ?_, ?_⟩
    · exact (hiff e.user_id).mp (List.mem_map.mpr ⟨e, he, rfl⟩)
    · exact hsum
    · intro t
      show t ∈ allCoverageTypes.filter (fun t => decide (¬ t ∈ e.insurance_types)) ↔ _
      rw [List.mem_filter]
      simp only [decide_eq_true_eq]
      rw [hty t]
      exact Iff.rfl
    · refine ⟨e.record, hh, rfl, rfl, rfl, rfl, rfl, ?_⟩
      exact head_max_of_sorted (gapFetched_sorted records agent min_gap min_score limit)
        e.user_id hh
  · intro u hu hlen
    rcases List.mem_map.mp ((hiff u).mpr hu) with ⟨e, he, hue⟩
    have hmem : gapOpp e ∈ sortDescBy (fun o => (o.opportunity_score : ℚ))
        ((gapGroups (gapFetched records agent min_gap min_score limit)).map gapOpp) :=
      mem_sortDescBy.mpr (List.mem_map.mpr ⟨e, he, rfl⟩)
    rw [hres] at hlen ⊢
    rw [List.length_take] at hlen
    have hlt : (sortDescBy (fun o => (o.opportunity_score : ℚ))
        ((gapGroups (gapFetched records agent min_gap min_score limit)).map
          gapOpp)).length < limit := by omega
    rw [List.take_all_of_le (le_of_lt hlt)]
    exact ⟨gapOpp e, hmem, hue⟩

/-- Coverage-gap record for client "u": Health, premium 100, score 90. -/
def c8r1 : InsuranceRecord :=
  { user_id := "u", name := none, agent_id := none, agent_external_id := none
    deleted := "false", insurance_type := some "Health", premium := some 100
    wealth_band := none, mock_age := none, mf_current_value := none
    baseline_expected_premium := none, premium_gap := 50000, opportunity_score := 90 }

/-- Coverage-gap record for client "u": Term, premium 200, score 80. -/
def c8r2 : InsuranceRecord :=
  { c8r1 with insurance_type := some "Term", premium := some 200, opportunity_score := 80 }

/-- Coverage-gap record for client "u": ULIP, premium 400, score 70 — matching,
but beyond the `limit*2` prefetch when limit = 1. -/
def c8r3 : InsuranceRecord :=
  { c8r1 with insurance_type := some "ULIP", premium := some 400, opportunity_score := 70 }

/-- C8 counterexample: with limit 1 the query prefetch keeps only 2 of the
client's 3 matching records, so the emitted total premium is 300 while the
claimed sum over all the client's matching records is 700 (the missing
coverage set is likewise computed from a strict subset of the records). -/
theorem C8_counterexample :
    ((get_insurance_gap_opportunities [c8r1, c8r2, c8r3] none 0 0 1).map
      (fun o => o.total_premium)) = [300] ∧
    ((gapMatching ([c8r1, c8r2, c8r3].filter (gapQuery 0 0)) "u").map premOr).sum
      = 700 ∧
    (300 : ℚ) ≠ 700 := by
  refine ⟨?_, ?_, by norm_num⟩
  · norm_num [get_insurance_gap_opportunities, gapFetched, pyAgentFilter, gapQuery,
      gapGroups, gapStep, gapOpp, addTypeOnce, typeOr, premOr, strOr, gapMatching,
      sortDescBy, List.insertionSort, descKey, c8r1, c8r2, c8r3, min_def]
  · norm_num [gapMatching, gapQuery, premOr, c8r1, c8r2, c8r3]

/-- C8 witness: the amended theorem applied at the concrete three-record input
with limit 2 shows client "u" is emitted (one opportunity, below the limit). -/
theorem C8_witness :
    "u" ∈ (gapFetched [c8r1, c8r2, c8r3] none 0 0 2).map (fun r => r.user_id) ∧
    (get_insurance_gap_opportunities [c8r1, c8r2, c8r3] none 0 0 2).length < 2 ∧
    ∃ o ∈ get_insurance_gap_opportunities [c8r1, c8r2, c8r3] none 0 0 2,
      o.user_id = "u" := by
  have h1 : "u" ∈ (gapFetched [c8r1, c8r2, c8r3] none 0 0 2).map
      (fun r => r.user_id) := by
    norm_num [gapFetched, pyAgentFilter, gapQuery, sortDescBy, List.insertionSort,
      descKey, c8r1, c8r2, c8r3]
  have h2 : (get_insurance_gap_opportunities [c8r1, c8r2, c8r3] none 0 0 2).length
      < 2 := by
    norm_num [get_insurance_gap_opportunities, gapFetched, pyAgentFilter, gapQuery,
      gapGroups, gapStep, gapOpp, addTypeOnce, typeOr, premOr, strOr,
      sortDescBy, List.insertionSort, descKey, c8r1, c8r2, c8r3, min_def]
  exact ⟨h1, h2,
    (C8_insurance_gap_amended [c8r1, c8r2, c8r3] none 0 0 2).2.2.2.2 "u" h1 h2⟩

lemma map_filterMap_user {α : Type} (step : String → Option α) (get : α → String)
    (hstep : ∀ u o, step u = some o → get o = u) :
    ∀ l : List String,
      (l.filterMap step).map get = l.filter (fun u => (step u).isSome) := by
  intro l
  induction l with
  | nil => rfl
  | cons u l ih =>
    cases hs : step u with
    | none => simp [List.filterMap_cons, hs, List.filter_cons, ih]
    | some o => simp [List.filterMap_cons, hs, List.filter_cons, hstep u o hs, ih]

/-- What membership in the no-insurance result implies: the client came out of
the agent-filtered group-by with a sum above the threshold, is uninsured, and
the opportunity is built from the client's first non-deleted plan row. -/
lemma noIns_mem_elim {sips : List SIPRecord} {ins : List InsuranceRecord}
    {agent : Option String} {min_mf : ℚ} {limit : Nat} {o : InsuranceOpportunity}
    (ho : o ∈ get_no_insurance_clients sips ins agent min_mf limit) :
    ∃ u, o.user_id = u ∧
      u ∈ firstOccs ((noInsBase sips agent).map (fun r => r.user_id)) ∧
      min_mf ≤ clientTotal (noInsBase sips agent) u ∧
      ¬ u ∈ insuredClientIds ins ∧
      ∃ r, (sips.filter (fun x => x.user_id == u && x.deleted == "false")).head? =
          some r ∧
        o = noInsOpp u (clientTotal (noInsBase sips agent) u) r := by
  have ho2 : o ∈ (noInsClients sips agent min_mf).filterMap (noInsStep sips ins agent) :=
    mem_sortDescBy.mp ((List.take_sublist _ _).subset ho)
  rcases List.mem_filterMap.mp ho2 with ⟨u, hu, hstep⟩
  rcases List.mem_filter.mp hu with ⟨hocc, hmin⟩
  unfold noInsStep at hstep
  by_cases hins : u ∈ insuredClientIds ins
  · rw [if_pos hins] at hstep
    exact absurd hstep (by simp)
  · rw [if_neg hins] at hstep
    cases hh : (sips.filter (fun r => r.user_id == u && r.deleted == "false")).head? with
    | none =>
      rw [hh] at hstep
      exact absurd hstep (by simp)
    | some r =>
      rw [hh] at hstep
      simp only [Option.some.injEq] at hstep
      exact ⟨u, by rw [← hstep]; rfl, hocc, by simpa using hmin, hins, r, hh, hstep.symm⟩

/-- C7: the no-coverage rule returns one opportunity per client whose summed
success amount over non-soft-deleted plans reaches `min_mf_value` and who has
no non-soft-deleted protection record: client ids are distinct, the result is
sorted descending by total invested value and truncated to the limit, and each
opportunity carries expected premium `min 100000 (total * 0.02)` as both
baseline and gap, fixed opportunity score 100, the "5Cr+" / "1Cr-5Cr" wealth
band step function at 5,000,000, and all four coverage types missing; every
qualifying client with at least one non-deleted plan row is emitted unless the
result was truncated. -/
theorem C7_no_insurance_spec (sips : List SIPRecord) (ins : List InsuranceRecord)
    (min_mf : ℚ) (limit : Nat) :
    (get_no_insurance_clients sips ins none min_mf limit).length ≤ limit ∧
    ((get_no_insurance_clients sips ins none min_mf limit).map
      (fun o => o.user_id)).Nodup ∧
    ((get_no_insurance_clients sips ins none min_mf limit).map
      (fun o => o.mf_current_value)).Sorted (fun a b : ℚ => b ≤ a) ∧
    (∀ o ∈ get_no_insurance_clients sips ins none min_mf limit,
      min_mf ≤ clientTotal (sips.filter (fun r => r.deleted == "false")) o.user_id ∧
      ¬ o.user_id ∈ insuredClientIds ins ∧
      o.mf_current_value =
        clientTotal (sips.filter (fun r => r.deleted == "false")) o.user_id ∧
      o.baseline_expected_premium = min 100000
        (clientTotal (sips.filter (fun r => r.deleted == "false")) o.user_id * (2 / 100)) ∧
      o.premium_gap = min 100000
        (clientTotal (sips.filter (fun r => r.deleted == "false")) o.user_id * (2 / 100)) ∧
      o.opportunity_score = 100 ∧
      o.total_premium = 0 ∧
      o.wealth_band = (if (5000000 : ℚ) ≤
          clientTotal (sips.filter (fun r => r.deleted == "false")) o.user_id
        then "5Cr+" else "1Cr-5Cr") ∧
      o.missing_coverage_types = allCoverageTypes) ∧
    (∀ u, (∃ r ∈ sips, r.deleted = "false" ∧ r.user_id = u) →
      min_mf ≤ clientTotal (sips.filter (fun r => r.deleted == "false")) u →
      ¬ u ∈ insuredClientIds ins →
      (get_no_insurance_clients sips ins none min_mf limit).length < limit →
      ∃ o ∈ get_no_insurance_clients sips ins none min_mf limit, o.user_id = u) := by
  have hres : get_no_insurance_clients sips ins none min_mf limit =
      (sortDescBy (fun o => o.mf_current_value)
        ((noInsClients sips none min_mf).filterMap (noInsStep sips ins none))).take
        limit := rfl
  have hstepuser : ∀ u o, noInsStep sips ins none u = some o → o.user_id = u := by
    intro u o hso
    unfold noInsStep at hso
    by_cases hins : u ∈ insuredClientIds ins
    · rw [if_pos hins] at hso
      exact absurd hso (by simp)
    · rw [if_neg hins] at hso
      cases hh : (sips.filter (fun r => r.user_id == u && r.deleted == "false")).head? with
      | none =>
        rw [hh] at hso
        exact absurd hso (by simp)
      | some r =>
        rw [hh] at hso
        simp only [Option.some.injEq] at hso
        rw [← hso]
        rfl
  refine ⟨?_, ?_, ?_, ?_, ?_⟩
  · exact List.length_take_le _ _
  · rw [hres, List.map_take]
    apply List.Nodup.sublist (List.take_sublist _ _)
    have hperm : List.Perm
        ((sortDescBy (fun o => o.mf_current_value)
          ((noInsClients sips none min_mf).filterMap (noInsStep sips ins none))).map
          (fun o => o.user_id))
        (((noInsClients sips none min_mf).filterMap (noInsStep sips ins none)).map
          (fun o => o.user_id)) :=
      (sortDescBy_perm _ _).map _
    rw [hperm.nodup_iff, map_filterMap_user _ _ hstepuser]
    exact List.Nodup.filter _
      (List.Nodup.filter _ (nodup_firstOccs _))
  · exact map_take_sortDescBy_sorted _ _ _
  · intro o ho
    rcases noIns_mem_elim ho with ⟨u, huid, hocc, hmin, hins, r, hh, rfl⟩
    exact ⟨hmin, hins, rfl, rfl, rfl, rfl, rfl, rfl, rfl⟩
  · intro u hu hmin hins hlen
    rcases hu with ⟨r, hr, hrdel, hru⟩
    have hrB : r ∈ noInsBase sips none := by
      show r ∈ sips.filter (fun x => x.deleted == "false")
      exact List.mem_filter.mpr ⟨hr, by simp [hrdel]⟩
    have hocc : u ∈ firstOccs ((noInsBase sips none).map (fun x => x.user_id)) :=
      mem_firstOccs.mpr (List.mem_map.mpr ⟨r, hrB, hru⟩)
    have hcl : u ∈ noInsClients sips none min_mf :=
      List.mem_filter.mpr ⟨hocc, by simpa using hmin⟩
    have hrM : r ∈ sips.filter (fun x => x.user_id == u && x.deleted == "false") :=
      List.mem_filter.mpr ⟨hr, by simp [hru, hrdel]⟩
    obtain ⟨r0, hr0⟩ : ∃ r0,
        (sips.filter (fun x => x.user_id == u && x.deleted == "false")).head? = some r0 := by
      cases hl : sips.filter (fun x => x.user_id == u && x.deleted == "false") with
      | nil =>
        rw [hl] at hrM
        exact absurd hrM (List.not_mem_nil r)
      | cons a rest => exact ⟨a, by simp [hl]⟩
    have hstep : noInsStep sips ins none u =
        some (noInsOpp u (clientTotal (noInsBase sips none) u) r0) := by
      unfold noInsStep
      rw [if_neg hins, hr0]
    have hmemo : noInsOpp u (clientTotal (noInsBase sips none) u) r0 ∈
        sortDescBy (fun o => o.mf_current_value)
          ((noInsClients sips none min_mf).filterMap (noInsStep sips ins none)) :=
      mem_sortDescBy.mpr (List.mem_filterMap.mpr ⟨u, hcl, hstep⟩)
    rw [hres] at hlen ⊢
    rw [List.length_take] at hlen
    rw [List.take_all_of_le (le_of_lt (by omega))]
    exact ⟨noInsOpp u (clientTotal (noInsBase sips none) u) r0, hmemo, rfl⟩

/-- The no-coverage example plan: client "n1" with 6,000,000 total invested. -/
def c7sip : SIPRecord :=
  { user_id := "n1", agent_id := none, agent_external_id := none
    amount := 5000, increment_percentage := 0, increment_period := none
    is_active := "true", current_sip_status := "Success", deleted := "false"
    start_date := none, latest_success_order_date := none
    success_amount := 6000000, failed_amount := 0 }

/-- C7 witness: the spec example — total contribution 6,000,000, no protection
records, threshold 1,000,000 — is emitted with wealth band "5Cr+", expected
premium 100000 and opportunity score 100; the completeness part of the theorem
is applied at this input. -/
theorem C7_witness :
    (∃ o ∈ get_no_insurance_clients [c7sip] [] none 1000000 10, o.user_id = "n1") ∧
    (get_no_insurance_clients [c7sip] [] none 1000000 10).map
      (fun o => (o.wealth_band, o.baseline_expected_premium, o.opportunity_score)) =
      [("5Cr+", 100000, 100)] := by
  have h1 : ∃ r ∈ [c7sip], r.deleted = "false" ∧ r.user_id = "n1" :=
    ⟨c7sip, List.mem_singleton.mpr rfl, rfl, rfl⟩
  have h2 : (1000000 : ℚ) ≤
      clientTotal ([c7sip].filter (fun r => r.deleted == "false")) "n1" := by
    norm_num [clientTotal, c7sip]
  have h3 : ¬ ("n1" : String) ∈ insuredClientIds [] := by
    simp [insuredClientIds]
  have h4 : (get_no_insurance_clients [c7sip] [] none 1000000 10).length < 10 := by
    norm_num [get_no_insurance_clients, noInsClients, noInsStep, noInsBase,
      pyAgentFilter, firstOccs, addNew, clientTotal, insuredClientIds, noInsOpp,
      sortDescBy, List.insertionSort, descKey, c7sip, strOr, min_def]
  refine ⟨(C7_no_insurance_spec [c7sip] [] 1000000 10).2.2.2.2 "n1" h1 h2 h3 h4, ?_⟩
  norm_num [get_no_insurance_clients, noInsClients, noInsStep, noInsBase,
    pyAgentFilter, firstOccs, addNew, clientTotal, insuredClientIds, noInsOpp,
    sortDescBy, List.insertionSort, descKey, c7sip, strOr, min_def]

/-- First plan row of client "u" in snapshot order: advisor "B", zero success
amount — this is the row the `.first()` detail lookup returns. -/
def c10r2 : SIPRecord :=
  { user_id := "u", agent_id := some "B", agent_external_id := some "eb"
    amount := 1000, increment_percentage := 0, increment_period := none
    is_active := "true", current_sip_status := "Success", deleted := "false"
    start_date := none, latest_success_order_date := none
    success_amount := 0, failed_amount := 0 }

/-- Second plan row of client "u": advisor "A", 2,000,000 success amount — the
row whose sum qualifies the client under the advisor-"A" filter. -/
def c10r1 : SIPRecord :=
  { c10r2 with
    agent_id := some "A"
    agent_external_id := some "ea"
    success_amount := 2000000 }

/-- C10 counterexample: with advisor filter "A" the client qualifies through
advisor A's plans, but the emitted opportunity's agent_id is "B" — the detail
lookup takes the client's first non-deleted plan row without re-applying the
advisor filter — refuting the claim that the field equals the supplied filter. -/
theorem C10_counterexample :
    ((get_no_insurance_clients [c10r2, c10r1] [] (some "A") 1000000 10).map
      (fun o => o.agent_id)) = ["B"] ∧ ("B" : String) ≠ "A" := by
  constructor
  · norm_num +decide [get_no_insurance_clients, noInsClients, noInsStep, noInsBase,
      pyAgentFilter, firstOccs, addNew, clientTotal, insuredClientIds, noInsOpp,
      sortDescBy, List.insertionSort, descKey, c10r1, c10r2, strOr, min_def]
  · decide

/-- C10 (amended): for every non-empty advisor filter, each opportunity's
agent_id (and agent external id) comes from the client's first non-soft-deleted
contribution-plan row in the snapshot — looked up without the advisor filter,
with "0"/"unassigned" defaults for missing values — which need not equal the
supplied advisor filter. -/
theorem C10_agent_id_amended (sips : List SIPRecord) (ins : List InsuranceRecord)
    (a : String) (min_mf : ℚ) (limit : Nat) (ha : a ≠ "") :
    ∀ o ∈ get_no_insurance_clients sips ins (some a) min_mf limit,
      ∃ r, (sips.filter (fun x => x.user_id == o.user_id &&
          x.deleted == "false")).head? = some r ∧
        o.agent_id = strOr r.agent_id "0" ∧
        o.agent_external_id = strOr r.agent_external_id "unassigned" := by
  intro o ho
  rcases noIns_mem_elim ho with ⟨u, huid, hocc, hmin, hins, r, hh, rfl⟩
  exact ⟨r, hh, rfl, rfl⟩

/-- C10 witness: the amended theorem applied at the two-advisor snapshot shows
the emitted opportunity carries the agent of the first plan row ("B"), not the
filter ("A"). -/
theorem C10_witness :
    ("A" : String) ≠ "" ∧
    ∃ o ∈ get_no_insurance_clients [c10r2, c10r1] [] (some "A") 1000000 10,
      ∃ r, ([c10r2, c10r1].filter (fun x => x.user_id == o.user_id &&
          x.deleted == "false")).head? = some r ∧
        o.agent_id = strOr r.agent_id "0" ∧
        o.agent_external_id = strOr r.agent_external_id "unassigned" := by
  have hne : ("A" : String) ≠ "" := by decide
  have hmem : noInsOpp "u"
      (clientTotal (noInsBase [c10r2, c10r1] (some "A")) "u") c10r2 ∈
      get_no_insurance_clients [c10r2, c10r1] [] (some "A") 1000000 10 := by
    norm_num +decide [get_no_insurance_clients, noInsClients, noInsStep, noInsBase,
      pyAgentFilter, firstOccs, addNew, insuredClientIds,
      sortDescBy, List.insertionSort, descKey, c10r1, c10r2, clientTotal]
  exact ⟨hne, _, hmem,
    C10_agent_id_amended [c10r2, c10r1] [] "A" 1000000 10 hne _ hmem⟩

/-- The columns of a `portfolio_holdings` row (src/app/models.py) read by the
low-rating rule; the rating is free text (`w_rating`), possibly non-numeric. -/
structure PortfolioHolding where
  user_id : String
  scheme_name : String
  wpc : Option String
  category : Option String
  amc_name : Option String
  current_value : ℚ
  portfolio_weight : Option ℚ
  w_rating : Option String
  xirr_performance : Option ℚ
  three_year_returns_alpha : Option ℚ
  five_year_returns_alpha : Option ℚ
  rolling_12q_beat_percentage : Option ℚ
deriving DecidableEq

/-- The `PortfolioOpportunity` response schema as populated by the low-rating
rule (description text not modelled). -/
structure PortfolioOpportunity where
  user_id : String
  scheme_name : String
  wpc : Option String
  category : Option String
  amc_name : Option String
  current_value : ℚ
  portfolio_weight : Option ℚ
  opportunity_type : String
  w_rating : Option String
  xirr_performance : Option ℚ
  three_year_returns_alpha : Option ℚ
  five_year_returns_alpha : Option ℚ
  rolling_12q_beat_percentage : Option ℚ
deriving DecidableEq

/-- The `if user_id:` guard plus `.filter(PortfolioHolding.user_id == user_id)`
pattern: no filtering for `None` or the empty string. -/
def pyUserFilter (user : Option String) (l : List PortfolioHolding) :
    List PortfolioHolding :=
  match user with
  | none => l
  | some u => if u = "" then l else l.filter (fun r => r.user_id == u)

/-- The query filter of `get_low_rated_funds`: rating column non-NULL and
current value at least the threshold. -/
def lowRatedQuery (min_current_value : ℚ) (r : PortfolioHolding) : Bool :=
  r.w_rating.isSome && decide (min_current_value ≤ r.current_value)

/-- The try/except loop body of `get_low_rated_funds`: `float(w_rating)`
(modelled by the `parseFloat` oracle), keep the holding when the parsed rating
is strictly below the bound, silently skip on ValueError. -/
def lowRatedKeep (parseFloat : String → Option ℚ) (max_rating : ℚ)
    (r : PortfolioHolding) : Option PortfolioHolding :=
  match r.w_rating with
  | some s =>
    match parseFloat s with
    | some rating => if rating < max_rating then some r else none
    | none => none
  | none => none

/-- The opportunity object built per kept holding in `get_low_rated_funds`. -/
def lowRatedOpp (r : PortfolioHolding) : PortfolioOpportunity :=
  { user_id := r.user_id
    scheme_name := r.scheme_name
    wpc := r.wpc
    category := r.category
    amc_name := r.amc_name
    current_value := r.current_value
    portfolio_weight := r.portfolio_weight
    opportunity_type := "Low Rated Fund"
    w_rating := r.w_rating
    xirr_performance := r.xirr_performance
    three_year_returns_alpha := r.three_year_returns_alpha
    five_year_returns_alpha := r.five_year_returns_alpha
    rolling_12q_beat_percentage := r.rolling_12q_beat_percentage }

/-- `get_low_rated_funds` (src/app/services.py, lines 658-711): query filter,
full fetch, rating parse with per-record skip, sort by current value descending
in application code, truncate, build opportunities. -/
def get_low_rated_funds (parseFloat : String → Option ℚ)
    (records : List PortfolioHolding) (user : Option String)
    (max_rating min_current_value : ℚ) (limit : Nat) : List PortfolioOpportunity :=
  let holdings := pyUserFilter user (records.filter (lowRatedQuery min_current_value))
  let low_rated := holdings.filterMap (lowRatedKeep parseFloat max_rating)
  ((sortDescBy (fun r => r.current_value) low_rated).take limit).map lowRatedOpp

/-- Follows the claim wording for C9: non-null rating text that parses as a
number strictly below the bound, and current value at least the threshold. -/
def lowRatedEligible (parseFloat : String → Option ℚ)
    (max_rating min_current_value : ℚ) (r : PortfolioHolding) : Bool :=
  (match r.w_rating with
   | some s =>
     match parseFloat s with
     | some rating => decide (rating < max_rating)
     | none => false
   | none => false) && decide (min_current_value ≤ r.current_value)

/-- Rating oracle for the low-rating example: only the text "2.5" parses. -/
def c9pf : String → Option ℚ := fun s => if s = "2.5" then some (5 / 2) else none

/-- A holding with numeric rating text "2.5", below the default bound 3. -/
def c9h1 : PortfolioHolding :=
  { user_id := "p1", scheme_name := "F1", wpc := none, category := none
    amc_name := none, current_value := 50000, portfolio_weight := none
    w_rating := some "2.5", xirr_performance := none
    three_year_returns_alpha := none, five_year_returns_alpha := none
    rolling_12q_beat_percentage := none }

/-- A holding with non-numeric rating text, to be skipped without error. -/
def c9h2 : PortfolioHolding :=
  { c9h1 with scheme_name := "F2", w_rating := some "Not Rated", current_value := 90000 }

/-- C9: the low-rating rule returns opportunities exactly for the holdings with
a non-null rating text that parses as a number strictly below `max_rating` and
`current_value ≥ min_current_value`; holdings whose rating text does not parse
are excluded without any error (the skip is part of the total filter), and the
result is sorted descending by current value in application logic and truncated
to the limit.  At the concrete two-holding input the non-numeric "Not Rated"
fund is silently dropped and only "F1" is emitted. -/
theorem C9_low_rated_spec (parseFloat : String → Option ℚ)
    (records : List PortfolioHolding) (max_rating min_cv : ℚ) (limit : Nat) :
    get_low_rated_funds parseFloat records none max_rating min_cv limit =
      ((sortDescBy (fun r => r.current_value)
        (records.filter (lowRatedEligible parseFloat max_rating min_cv))).take
        limit).map lowRatedOpp ∧
    (get_low_rated_funds parseFloat records none max_rating min_cv limit).length
      ≤ limit ∧
    ((get_low_rated_funds parseFloat records none max_rating min_cv limit).map
      (fun o => o.current_value)).Sorted (fun a b : ℚ => b ≤ a) ∧
    (get_low_rated_funds c9pf [c9h1, c9h2] none 3 0 100).map
      (fun o => o.scheme_name) = ["F1"] := by
  have hbridge :
      (records.filter (lowRatedQuery min_cv)).filterMap
        (lowRatedKeep parseFloat max_rating) =
      (records.filter (lowRatedEligible parseFloat max_rating min_cv)).map id := by
    rw [filterMap_eq_map_filter_of_forall
      (lowRatedEligible parseFloat max_rating min_cv) _ id _ (fun a ha => ?_)]
    · apply congrArg
      rw [List.filter_filter]
      apply List.filter_congr
      intro a _
      by_cases hc : lowRatedEligible parseFloat max_rating min_cv a = true
      · have hq : lowRatedQuery min_cv a = true := by
          unfold lowRatedEligible at hc
          unfold lowRatedQuery
          rcases hw : a.w_rating with _ | s
          · rw [hw] at hc
            simp at hc
          · rw [hw] at hc
            simp only [Bool.and_eq_true] at hc ⊢
            exact ⟨rfl, hc.2⟩
        simp [hc, hq]
      · simp only [Bool.not_eq_true] at hc
        simp [hc]
    · have hq := (List.mem_filter.mp ha).2
      unfold lowRatedQuery at hq
      simp only [Bool.and_eq_true, decide_eq_true_eq] at hq
      obtain ⟨hsome, hcv⟩ := hq
      unfold lowRatedKeep lowRatedEligible
      rcases hw : a.w_rating with _ | s
      · rw [hw] at hsome
        simp at hsome
      · rcases hp : parseFloat s with _ | rating
        · simp [hp]
        · by_cases hlt : rating < max_rating
          · simp [hp, hlt, hcv]
          · simp [hp, hlt]
  refine ⟨?_, ?_, ?_, ?_⟩
  · simp only [get_low_rated_funds, pyUserFilter]
    rw [hbridge, List.map_id]
  · simp only [get_low_rated_funds, pyUserFilter, List.length_map]
    exact List.length_take_le _ _
  · simp only [get_low_rated_funds, pyUserFilter]
    rw [List.map_map]
    have hkey : ((fun o => o.current_value) ∘ lowRatedOpp) =
        fun r : PortfolioHolding => r.current_value := rfl
    rw [hkey]
    exact map_take_sortDescBy_sorted _ _ _
  · norm_num +decide [get_low_rated_funds, pyUserFilter, lowRatedQuery,
      lowRatedKeep, lowRatedOpp, sortDescBy, List.insertionSort, descKey,
      List.filterMap_cons, c9pf, c9h1, c9h2]

end Wealthy
